import Mathlib

/-
Verification of the picking/update core of the egui-gizmo repository
(src/rotation.rs, src/translation.rs, src/subgizmo.rs), shallowly embedded
over exact real arithmetic.  Machine floats of the source are modelled as
real numbers; `v.normalize()` of the zero vector, which yields NaN in the
source, is modelled with the real-division convention x / 0 = 0, and every
place where the source checks for NaN checks for the zero length instead.
The `crate::math` module is not part of the given sources; its functions are
either modelled from the spec (ray_to_plane_origin, intersect_plane,
ray_to_ray, round_to_interval) or passed in as abstract parameters where the
spec declares them external given primitives (world_to_screen,
segment_to_segment).  Persistent widget state (`update_state_with`) is
modelled by explicit state passing: each pick/update function takes the
stored state and returns the pair (result, state after the call).
-/

noncomputable section

namespace Gizmo

/-- A 3-component vector of reals, modelling glam's DVec3. -/
@[ext]
structure DVec3 where
  x : ℝ
  y : ℝ
  z : ℝ

instance : Zero DVec3 := ⟨⟨0, 0, 0⟩⟩
instance : Add DVec3 := ⟨fun a b => ⟨a.x + b.x, a.y + b.y, a.z + b.z⟩⟩
instance : Sub DVec3 := ⟨fun a b => ⟨a.x - b.x, a.y - b.y, a.z - b.z⟩⟩
instance : Neg DVec3 := ⟨fun a => ⟨-a.x, -a.y, -a.z⟩⟩
instance : SMul ℝ DVec3 := ⟨fun c a => ⟨c * a.x, c * a.y, c * a.z⟩⟩

/-- Dot product. -/
def DVec3.dot (a b : DVec3) : ℝ := a.x * b.x + a.y * b.y + a.z * b.z

/-- Cross product. -/
def DVec3.cross (a b : DVec3) : DVec3 :=
  ⟨a.y * b.z - a.z * b.y, a.z * b.x - a.x * b.z, a.x * b.y - a.y * b.x⟩

/-- Euclidean length. -/
def DVec3.length (a : DVec3) : ℝ := Real.sqrt (a.dot a)

/-- Distance between two points. -/
def DVec3.distance (a b : DVec3) : ℝ := (a - b).length

/-- Normalization, `v / |v|`; the zero vector maps to zero (NaN in the source). -/
def DVec3.normalize (a : DVec3) : DVec3 := (1 / a.length) • a

/-- Unit axes, as in glam. -/
def DVec3.unitX : DVec3 := ⟨1, 0, 0⟩
def DVec3.unitY : DVec3 := ⟨0, 1, 0⟩
def DVec3.unitZ : DVec3 := ⟨0, 0, 1⟩

/-- A 2-component vector of reals, modelling glam's DVec2 / egui's Pos2. -/
@[ext]
structure DVec2 where
  x : ℝ
  y : ℝ

/-- Screen-space distance between two projected points. -/
def DVec2.distance (a b : DVec2) : ℝ :=
  Real.sqrt ((a.x - b.x) ^ 2 + (a.y - b.y) ^ 2)

/-- Length of a 2-vector. -/
def DVec2.length (a : DVec2) : ℝ := Real.sqrt (a.x ^ 2 + a.y ^ 2)

/-- Normalization of a 2-vector; zero maps to zero (NaN in the source). -/
def DVec2.normalize (a : DVec2) : DVec2 := ⟨a.x / a.length, a.y / a.length⟩

/-- Quaternions as stored by glam's DQuat (x, y, z imaginary parts, w real). -/
@[ext]
structure DQuat where
  w : ℝ
  x : ℝ
  y : ℝ
  z : ℝ

/-- Hamilton product, as implemented by glam for DQuat. -/
def DQuat.mul (a b : DQuat) : DQuat :=
  ⟨a.w * b.w - a.x * b.x - a.y * b.y - a.z * b.z,
   a.w * b.x + a.x * b.w + a.y * b.z - a.z * b.y,
   a.w * b.y - a.x * b.z + a.y * b.w + a.z * b.x,
   a.w * b.z + a.x * b.y - a.y * b.x + a.z * b.w⟩

instance : Mul DQuat := ⟨DQuat.mul⟩

/-- glam's `DQuat::from_axis_angle`: half-angle construction about a unit axis. -/
def DQuat.fromAxisAngle (axis : DVec3) (angle : ℝ) : DQuat :=
  ⟨Real.cos (angle / 2), Real.sin (angle / 2) * axis.x,
   Real.sin (angle / 2) * axis.y, Real.sin (angle / 2) * axis.z⟩

/-- Rotation of a vector by a quaternion (glam's `DQuat * DVec3`):
`v + w * t + q.xyz x t` with `t = 2 * (q.xyz x v)`. -/
def DQuat.rotateVec (q : DQuat) (v : DVec3) : DVec3 :=
  let qv : DVec3 := ⟨q.x, q.y, q.z⟩
  let t := (2 : ℝ) • qv.cross v
  v + q.w • t + qv.cross t

/-- Two-argument arctangent with range (-pi, pi], as `f64::atan2(y, x)`. -/
def atan2 (y x : ℝ) : ℝ := Complex.arg ⟨x, y⟩

/-- Modelled from the spec: `round_to_interval` of the missing `crate::math`
snaps a scalar to the nearest multiple of `interval`; `interval <= 0` is
treated as no snapping (identity). -/
def round_to_interval (value interval : ℝ) : ℝ :=
  if interval ≤ 0 then value else (round (value / interval) : ℤ) * interval

/-- Modelled from the spec: `ray_to_plane_origin` of the missing
`crate::math` solves the linear ray/plane intersection, returning the ray
parameter `t` and the Euclidean distance from `plane_origin` to the
intersection point; a ray parallel to the plane yields the degenerate
sentinel `t = 0` (division by zero in the reals), which callers tolerate. -/
def ray_to_plane_origin (normal plane_origin ray_origin ray_dir : DVec3) :
    ℝ × ℝ :=
  let t := ((plane_origin - ray_origin).dot normal) / (normal.dot ray_dir)
  let hit := ray_origin + t • ray_dir
  (t, (hit - plane_origin).length)

/-- Modelled from the spec: `intersect_plane` of the missing `crate::math`
fails (returns no intersection) exactly when the ray is parallel to the
plane, and otherwise yields the ray parameter of the intersection. -/
def intersect_plane (normal plane_origin ray_origin ray_dir : DVec3) :
    Option ℝ :=
  if normal.dot ray_dir = 0 then none
  else some (((plane_origin - ray_origin).dot normal) / (normal.dot ray_dir))

/-- Modelled from the spec: `ray_to_ray` of the missing `crate::math` gives
the closest-approach parameters of two infinite lines by the standard
skew-line closed form, guarding the denominator and falling back to
`(0, 0)` when the lines are parallel. -/
def ray_to_ray (o1 d1 o2 d2 : DVec3) : ℝ × ℝ :=
  let w := o1 - o2
  let a := d1.dot d1
  let b := d1.dot d2
  let c := d2.dot d2
  let d := d1.dot w
  let e := d2.dot w
  let denom := a * c - b * b
  if denom = 0 then (0, 0)
  else ((b * e - c * d) / denom, (a * e - b * d) / denom)

/-- The four handle directions of the source. -/
inductive GizmoDirection where
  | X
  | Y
  | Z
  | Screen
deriving DecidableEq

/-- The operation family recorded in a result. -/
inductive GizmoMode where
  | Rotate
  | Translate
  | Scale
deriving DecidableEq

/-- Visual sizing constants read by the embedded functions. -/
structure GizmoVisuals where
  gizmo_size : ℝ
  stroke_width : ℝ

/-- The configuration snapshot fields the embedded functions read.
`local_space`, `view_forward` and `view_right` are methods of the source
configuration; they are modelled as fields holding their values. -/
structure GizmoConfig where
  translation : DVec3
  rotation : DQuat
  scale : DVec3
  view_forward : DVec3
  view_right : DVec3
  local_space : Bool
  left_handed : Bool
  snapping : Bool
  snap_angle : ℝ
  snap_distance : ℝ
  focus_distance : ℝ
  scale_factor : ℝ
  visuals : GizmoVisuals

/-- One handle: its configuration snapshot and direction (the kind tag and
per-frame focus flags of the source do not enter the picking/update math). -/
structure SubGizmo where
  config : GizmoConfig
  direction : GizmoDirection

/-- `SubGizmo::local_normal`. -/
def SubGizmo.local_normal (sg : SubGizmo) : DVec3 :=
  match sg.direction with
  | .X => DVec3.unitX
  | .Y => DVec3.unitY
  | .Z => DVec3.unitZ
  | .Screen => -sg.config.view_forward

/-- `SubGizmo::normal`: the local normal, rotated into object space when the
gizmo operates in local space and the direction is not Screen. -/
def SubGizmo.normal (sg : SubGizmo) : DVec3 :=
  if sg.config.local_space = true ∧ sg.direction ≠ GizmoDirection.Screen then
    sg.config.rotation.rotateVec sg.local_normal
  else
    sg.local_normal

/-- The transform result returned by the update functions. -/
structure GizmoResult where
  scale : DVec3
  rotation : DQuat
  translation : DVec3
  mode : GizmoMode
  value : DVec3

/-- Persisted drag state of a rotation handle. -/
structure RotationState where
  start_axis_angle : ℝ
  start_rotation_angle : ℝ
  last_rotation_angle : ℝ
  current_delta : ℝ

/-- Persisted drag state of a translation handle. -/
structure TranslationState where
  start_point : DVec3
  last_point : DVec3
  current_delta : DVec3

/-- A world-space ray from the pointer. -/
structure Ray where
  origin : DVec3
  direction : DVec3

/-- A drawn primitive, abstracting the 3d painter calls (colors and the
model/view matrix handed to the painter are presentation data and omitted). -/
inductive PaintCmd where
  | lineSegment (a b : DVec3) (width : ℝ)
  | arrow (a b : DVec3) (width : ℝ)
  | polygon (pts : List DVec3)

/-- `arc_radius` of rotation.rs: base size, with a small bonus for the
screen-aligned axis, scaled by the view scale factor. -/
def arc_radius (sg : SubGizmo) : ℝ :=
  let radius := sg.config.visuals.gizmo_size
  let radius :=
    if sg.direction = GizmoDirection.Screen then
      radius + sg.config.visuals.stroke_width + 5
    else radius
  sg.config.scale_factor * radius

/-- `arc_angle` of rotation.rs: the half-span of the visible rotation arc,
widening from a half circle to a full circle as the (absolute) dot product of
the handle normal and the camera forward vector moves from 0.990 to 0.995. -/
def arc_angle (sg : SubGizmo) : ℝ :=
  let dot := |sg.normal.dot sg.config.view_forward|
  let min_dot := (0.990 : ℝ)
  let max_dot := (0.995 : ℝ)
  min 1 (max 0 (dot - min_dot) / (max_dot - min_dot)) * (Real.pi / 2) + Real.pi / 2

/-- `tangent` of rotation.rs: the zero-angle reference direction of a
rotation handle. -/
def tangent (sg : SubGizmo) : DVec3 :=
  let t :=
    match sg.direction with
    | .X => DVec3.unitZ
    | .Y => DVec3.unitZ
    | .Z => -DVec3.unitY
    | .Screen => -sg.config.view_right
  if sg.config.local_space = true ∧ sg.direction ≠ GizmoDirection.Screen then
    sg.config.rotation.rotateVec t
  else t

/-- `rotation_angle` of rotation.rs: the screen-space pointer angle around
the projected gizmo origin.  `cursor` is the hover position (`None` when the
pointer is unavailable) and `w2s` stands for
`world_to_screen(viewport, config.mvp, -)`, the external projection
primitive, which returns `None` behind the camera.  A zero screen delta
makes `normalize` produce NaN in the source, checked by `is_nan`; here it is
the zero-length test. -/
def rotation_angle (sg : SubGizmo) (cursor : Option DVec2)
    (w2s : DVec3 → Option DVec2) : Option ℝ :=
  match cursor with
  | none => none
  | some c =>
    match w2s ⟨0, 0, 0⟩ with
    | none => none
    | some g =>
      let delta : DVec2 := ⟨c.x - g.x, c.y - g.y⟩
      let d := delta.normalize
      if delta.length = 0 then none
      else
        let angle := atan2 d.y d.x
        some (if sg.config.view_forward.dot sg.normal < 0 then -angle else angle)

/-- The snapped resolved angle of `update_rotation`: with snapping on, the
angle travelled since drag start is rounded to the snap increment and the
start angle re-added. -/
def resolved_angle (sg : SubGizmo) (st : RotationState) (raw : ℝ) : ℝ :=
  if sg.config.snapping = true then
    round_to_interval (raw - st.start_rotation_angle) sg.config.snap_angle +
      st.start_rotation_angle
  else raw

/-- The wrap-corrected per-frame angle increment of `update_rotation`
(rotation.rs lines 123-130): the raw difference, brought back by one full
turn when it exceeds pi in magnitude. -/
def angle_delta (last new : ℝ) : ℝ :=
  let d := new - last
  if d > Real.pi then d - 2 * Real.pi
  else if d < -Real.pi then d + 2 * Real.pi
  else d

/-- `update_rotation` of rotation.rs, with the persisted state passed
explicitly: returns the optional result and the state after the call.  The
returned `value` reads `current_delta` from the copy of the state loaded
before the store, exactly as the source does. -/
def update_rotation (sg : SubGizmo) (cursor : Option DVec2)
    (w2s : DVec3 → Option DVec2) (st : RotationState) :
    Option GizmoResult × RotationState :=
  match rotation_angle sg cursor w2s with
  | none => (none, st)
  | some raw =>
    let rot_angle := resolved_angle sg st raw
    let delta := angle_delta st.last_rotation_angle rot_angle
    let st' : RotationState :=
      { st with last_rotation_angle := rot_angle,
                current_delta := st.current_delta + delta }
    let new_rotation := (DQuat.fromAxisAngle sg.normal (-delta)).mul sg.config.rotation
    (some { scale := sg.config.scale
            rotation := new_rotation
            translation := sg.config.translation
            mode := GizmoMode.Rotate
            value := st.current_delta • sg.normal }, st')

/-- `pick_rotation` of rotation.rs: tests the ray against the rotation arc
and seeds the drag state (the source seeds via `update_state_with` before
the hit test, so the state is overwritten regardless of the outcome). -/
def pick_rotation (sg : SubGizmo) (cursor : Option DVec2)
    (w2s : DVec3 → Option DVec2) (ray : Ray) (st : RotationState) :
    Option ℝ × RotationState :=
  let radius := arc_radius sg
  let origin := sg.config.translation
  let normal := sg.normal
  let tang := tangent sg
  let td := ray_to_plane_origin normal origin ray.origin ray.direction
  let t := td.1
  let dist_from_gizmo_origin := td.2
  let dist_from_gizmo_edge := |dist_from_gizmo_origin - radius|
  let hit_pos := ray.origin + t • ray.direction
  let dir_to_origin := (origin - hit_pos).normalize
  let nearest_circle_pos := hit_pos + (dist_from_gizmo_origin - radius) • dir_to_origin
  let offset := (nearest_circle_pos - origin).normalize
  let angle :=
    if sg.direction = GizmoDirection.Screen then
      atan2 ((tang.cross normal).dot offset) (tang.dot offset)
    else
      let forward :=
        if sg.config.left_handed = true then (-1 : ℝ) • sg.config.view_forward
        else sg.config.view_forward
      atan2 ((offset.cross forward).dot normal) (offset.dot forward)
  let rot_angle := (rotation_angle sg cursor w2s).getD 0
  let st' : RotationState := ⟨angle, rot_angle, rot_angle, 0⟩
  (if dist_from_gizmo_edge ≤ sg.config.focus_distance ∧ |angle| < arc_angle sg
   then some t else none, st')

/-- The two world-space defining endpoints of a linear translation handle
(the start and the end of its arrow segment, translation.rs lines 12-32),
whose screen projections decide its visibility; shared with
`draw_translation`. -/
def translation_endpoints (sg : SubGizmo) : DVec3 × DVec3 :=
  let direction := sg.local_normal
  let width := sg.config.scale_factor * sg.config.visuals.stroke_width
  let length0 := sg.config.scale_factor * sg.config.visuals.gizmo_size
  let arrow_length := width * 2.4
  let length := length0 - arrow_length
  (width • direction, length • direction)

/-- `translation_is_visible` of translation.rs: `w2s` stands for the
external primitive `world_to_screen(viewport, view_projection *
translation_transform(subgizmo), -)`.  The handle is invisible when both
projected endpoints exist and are less than 5 screen units apart. -/
def translation_is_visible (w2s : DVec3 → Option DVec2) (sg : SubGizmo) : Bool :=
  match w2s (translation_endpoints sg).1, w2s (translation_endpoints sg).2 with
  | some s, some e => if s.distance e < 5 then false else true
  | _, _ => true

/-- `pick_translation` of translation.rs, with the missing
`crate::math::segment_to_segment` passed as the abstract parameter
`seg2seg` (clamped closest-approach parameters of two segments). -/
def pick_translation (seg2seg : DVec3 → DVec3 → DVec3 → DVec3 → ℝ × ℝ)
    (w2s : DVec3 → Option DVec2) (sg : SubGizmo) (ray : Ray)
    (st : TranslationState) : Option ℝ × TranslationState :=
  if translation_is_visible w2s sg = false then (none, st)
  else
    let origin := sg.config.translation
    let dir := sg.normal
    let length := sg.config.scale_factor * sg.config.visuals.gizmo_size
    let ray_length := (1e14 : ℝ)
    let ts := seg2seg ray.origin (ray.origin + ray_length • ray.direction)
      origin (origin + length • dir)
    let ray_point := ray.origin + (ray_length * ts.1) • ray.direction
    let subgizmo_point := origin + (length * ts.2) • dir
    let dist := (ray_point - subgizmo_point).length
    let st' : TranslationState := ⟨subgizmo_point, subgizmo_point, 0⟩
    (if dist ≤ sg.config.focus_distance then some (ray.origin.distance ray_point)
     else none, st')

/-- `draw_translation` of translation.rs, abstracted to the list of painter
calls it makes; skipped (empty) when the handle is not visible. -/
def draw_translation (w2s : DVec3 → Option DVec2) (sg : SubGizmo) : List PaintCmd :=
  if translation_is_visible w2s sg = false then []
  else
    let direction := sg.local_normal
    let width := sg.config.scale_factor * sg.config.visuals.stroke_width
    let length0 := sg.config.scale_factor * sg.config.visuals.gizmo_size
    let arrow_length := width * 2.4
    let length := length0 - arrow_length
    let start := width • direction
    let finish := length • direction
    [PaintCmd.lineSegment start finish sg.config.visuals.stroke_width,
     PaintCmd.arrow finish (finish + arrow_length • direction)
       (sg.config.visuals.stroke_width * 1.2)]

/-- `point_on_axis` of translation.rs: nearest point on the handle's
constraint line to the ray, via `ray_to_ray`. -/
def point_on_axis (sg : SubGizmo) (ray : Ray) : DVec3 :=
  let origin := sg.config.translation
  let direction := sg.normal
  let ts := ray_to_ray ray.origin ray.direction origin direction
  origin + ts.2 • direction

/-- `snap_translation_vector` of translation.rs: round the delta's length to
the snap increment, preserving direction; lengths of at most 1e-5 are
returned unchanged, avoiding the division. -/
def snap_translation_vector (sg : SubGizmo) (new_delta : DVec3) : DVec3 :=
  let delta_length := new_delta.length
  if delta_length > 1e-5 then
    (round_to_interval delta_length sg.config.snap_distance / delta_length) • new_delta
  else new_delta

/-- `update_translation` of translation.rs, with the persisted state passed
explicitly.  `new_translation` and `value` read `last_point` and
`current_delta` from the copy of the state loaded before the store, exactly
as the source does. -/
def update_translation (sg : SubGizmo) (ray : Ray) (st : TranslationState) :
    Option GizmoResult × TranslationState :=
  let p := point_on_axis sg ray
  let d := p - st.start_point
  let new_delta := if sg.config.snapping = true then snap_translation_vector sg d else d
  let new_point := if sg.config.snapping = true then st.start_point + new_delta else p
  let st' : TranslationState := { st with last_point := new_point, current_delta := new_delta }
  let new_translation := sg.config.translation + new_point - st.last_point
  (some { scale := sg.config.scale
          rotation := sg.config.rotation
          translation := new_translation
          mode := GizmoMode.Translate
          value := st.current_delta }, st')

/-- `translation_plane_binormal` of translation.rs. -/
def translation_plane_binormal (direction : GizmoDirection) : DVec3 :=
  match direction with
  | .X => DVec3.unitY
  | .Y => DVec3.unitZ
  | .Z => DVec3.unitX
  | .Screen => DVec3.unitX

/-- `translation_plane_tangent` of translation.rs. -/
def translation_plane_tangent (direction : GizmoDirection) : DVec3 :=
  match direction with
  | .X => DVec3.unitZ
  | .Y => DVec3.unitX
  | .Z => DVec3.unitY
  | .Screen => DVec3.unitX

/-- `translation_plane_size` of translation.rs. -/
def translation_plane_size (sg : SubGizmo) : ℝ :=
  sg.config.scale_factor *
    (sg.config.visuals.gizmo_size * 0.1 + sg.config.visuals.stroke_width * 2)

/-- `translation_plane_local_origin` of translation.rs. -/
def translation_plane_local_origin (sg : SubGizmo) : DVec3 :=
  let offset := sg.config.scale_factor * sg.config.visuals.gizmo_size * 0.4
  let a := translation_plane_binormal sg.direction
  let b := translation_plane_tangent sg.direction
  offset • (a + b)

/-- `translation_plane_global_origin` of translation.rs. -/
def translation_plane_global_origin (sg : SubGizmo) : DVec3 :=
  let origin := translation_plane_local_origin sg
  let origin :=
    if sg.config.local_space = true then sg.config.rotation.rotateVec origin
    else origin
  origin + sg.config.translation

/-- The first pair of defining endpoints of a planar translation handle:
the patch origin offset by plus/minus half the patch size along the
binormal (translation.rs lines 150-170). -/
def translation_plane_span_a (sg : SubGizmo) : DVec3 × DVec3 :=
  let origin := translation_plane_global_origin sg
  let scale := translation_plane_size sg * 0.5
  let a := scale • translation_plane_binormal sg.direction
  (origin - a, origin + a)

/-- The second pair of defining endpoints of a planar translation handle:
the patch origin offset along the tangent (translation.rs lines 172-186). -/
def translation_plane_span_b (sg : SubGizmo) : DVec3 × DVec3 :=
  let origin := translation_plane_global_origin sg
  let scale := translation_plane_size sg * 0.5
  let b := scale • translation_plane_tangent sg.direction
  (origin - b, origin + b)

/-- `translation_plane_is_visible` of translation.rs: each of the two span
pairs of the plane patch is projected; the handle is invisible as soon as
one pair projects to points less than 5 screen units apart. -/
def translation_plane_is_visible (w2s : DVec3 → Option DVec2) (sg : SubGizmo) : Bool :=
  let visA : Bool :=
    match w2s (translation_plane_span_a sg).1, w2s (translation_plane_span_a sg).2 with
    | some s, some e => if s.distance e < 5 then false else true
    | _, _ => true
  if visA = false then false
  else
    match w2s (translation_plane_span_b sg).1, w2s (translation_plane_span_b sg).2 with
    | some s, some e => if s.distance e < 5 then false else true
    | _, _ => true

/-- `pick_translation_plane` of translation.rs: intersect the ray with the
patch plane; hit when the intersection lies within `translation_plane_size`
of the patch origin.  The drag state is seeded before the hit test. -/
def pick_translation_plane (w2s : DVec3 → Option DVec2) (sg : SubGizmo)
    (ray : Ray) (st : TranslationState) : Option ℝ × TranslationState :=
  if translation_plane_is_visible w2s sg = false then (none, st)
  else
    let origin := translation_plane_global_origin sg
    let normal := sg.normal
    let td := ray_to_plane_origin normal origin ray.origin ray.direction
    let ray_point := ray.origin + td.1 • ray.direction
    let st' : TranslationState := ⟨ray_point, ray_point, 0⟩
    (if td.2 ≤ translation_plane_size sg then some td.1 else none, st')

/-- `draw_translation_plane` of translation.rs, abstracted to the painter
calls; skipped (empty) when the handle is not visible. -/
def draw_translation_plane (w2s : DVec3 → Option DVec2) (sg : SubGizmo) :
    List PaintCmd :=
  if translation_plane_is_visible w2s sg = false then []
  else
    let scale := translation_plane_size sg * 0.5
    let a := scale • translation_plane_binormal sg.direction
    let b := scale • translation_plane_tangent sg.direction
    let origin := translation_plane_local_origin sg
    [PaintCmd.polygon [origin - b - a, origin + b - a, origin + b + a, origin - b + a]]

/-- `point_on_plane` of translation.rs: the intersection of the ray with the
constraint plane, absent when `intersect_plane` reports the parallel case. -/
def point_on_plane (plane_normal plane_origin : DVec3) (ray : Ray) : Option DVec3 :=
  match intersect_plane plane_normal plane_origin ray.origin ray.direction with
  | none => none
  | some t => some (ray.origin + t • ray.direction)

/-- `snap_translation_plane` of translation.rs: decompose the delta along
the plane's binormal/tangent by cross products with the plane normal, round
each magnitude independently, and recompose; degenerate lengths (at most
1e-5) leave the delta unchanged. -/
def snap_translation_plane (sg : SubGizmo) (new_delta : DVec3) : DVec3 :=
  let binormal0 := translation_plane_binormal sg.direction
  let tangent0 := translation_plane_tangent sg.direction
  let binormal :=
    if sg.config.local_space = true then sg.config.rotation.rotateVec binormal0
    else binormal0
  let tang :=
    if sg.config.local_space = true then sg.config.rotation.rotateVec tangent0
    else tangent0
  let cb := new_delta.cross (-binormal)
  let ct := new_delta.cross tang
  let lb := cb.length
  let lt := ct.length
  let n := sg.normal
  if lb > 1e-5 ∧ lt > 1e-5 then
    (round_to_interval lt sg.config.snap_distance * (((1 / lt) • ct).dot n)) • binormal +
      (round_to_interval lb sg.config.snap_distance * (((1 / lb) • cb).dot n)) • tang
  else new_delta

/-- `update_translation_plane` of translation.rs, with the persisted state
passed explicitly.  As in `update_translation`, `new_translation` and
`value` read the copy of the state loaded before the store. -/
def update_translation_plane (sg : SubGizmo) (ray : Ray) (st : TranslationState) :
    Option GizmoResult × TranslationState :=
  match point_on_plane sg.normal (translation_plane_global_origin sg) ray with
  | none => (none, st)
  | some p =>
    let d := p - st.start_point
    let new_delta := if sg.config.snapping = true then snap_translation_plane sg d else d
    let new_point := if sg.config.snapping = true then st.start_point + new_delta else p
    let st' : TranslationState := { st with last_point := new_point, current_delta := new_delta }
    let new_translation := sg.config.translation + new_point - st.last_point
    (some { scale := sg.config.scale
            rotation := sg.config.rotation
            translation := new_translation
            mode := GizmoMode.Translate
            value := st.current_delta }, st')

/-! ### Concrete instances used by witnesses and counterexamples -/

/-- A plain configuration: identity transform at the world origin, camera
looking along -Z, global space, snapping off, gizmo size 10, stroke width 0,
focus distance 1, scale factor 1. -/
def cfgG : GizmoConfig :=
  { translation := 0
    rotation := ⟨1, 0, 0, 0⟩
    scale := ⟨1, 1, 1⟩
    view_forward := ⟨0, 0, -1⟩
    view_right := ⟨1, 0, 0⟩
    local_space := false
    left_handed := false
    snapping := false
    snap_angle := 0
    snap_distance := 0
    focus_distance := 1
    scale_factor := 1
    visuals := ⟨10, 0⟩ }

/-- The X-axis handle of the plain configuration. -/
def sgX : SubGizmo := ⟨cfgG, GizmoDirection.X⟩

/-- The Z-axis handle of the plain configuration. -/
def sgZ : SubGizmo := ⟨cfgG, GizmoDirection.Z⟩

/-- A projection under which every point is behind the camera. -/
def w2sNone : DVec3 → Option DVec2 := fun _ => none

/-- A projection collapsing every point to the screen origin. -/
def w2sZero : DVec3 → Option DVec2 := fun _ => some ⟨0, 0⟩

/-- Zeroed translation drag state. -/
def st0 : TranslationState := ⟨0, 0, 0⟩

/-- A translation drag state with a nonzero accumulated delta. -/
def stT : TranslationState := ⟨0, ⟨9, 9, 9⟩, ⟨5, 5, 5⟩⟩

/-- Zeroed rotation drag state. -/
def stR0 : RotationState := ⟨0, 0, 0, 0⟩

/-- A ray hitting the X plane patch at distance 3/4 from its origin. -/
def rayP : Ray := ⟨⟨1, 4.75, 4⟩, ⟨-1, 0, 0⟩⟩

/-- A ray crossing the X axis at the point (2,0,0). -/
def rayT : Ray := ⟨⟨2, 0, 1⟩, ⟨0, 0, -1⟩⟩

/-- A ray parallel to the X axis, offset one unit along Y. -/
def rayPar : Ray := ⟨⟨0, 1, 0⟩, ⟨1, 0, 0⟩⟩

/-- A pointer position one unit to the right of the projected origin. -/
def cursorW : Option DVec2 := some ⟨1, 0⟩

/-! ### Component lemmas for the vector structures -/

@[simp]
theorem DVec3.add_def (a b : DVec3) : a + b = ⟨a.x + b.x, a.y + b.y, a.z + b.z⟩ := rfl

@[simp]
theorem DVec3.sub_def (a b : DVec3) : a - b = ⟨a.x - b.x, a.y - b.y, a.z - b.z⟩ := rfl

@[simp]
theorem DVec3.neg_def (a : DVec3) : -a = ⟨-a.x, -a.y, -a.z⟩ := rfl

@[simp]
theorem DVec3.smul_def (c : ℝ) (a : DVec3) : c • a = ⟨c * a.x, c * a.y, c * a.z⟩ := rfl

@[simp]
theorem DVec3.zero_def : (0 : DVec3) = ⟨0, 0, 0⟩ := rfl

/-! ### C1: minimal-angle law of the rotation update -/

/-- C1, counterexample: the claimed open-closed interval (-pi, pi] fails on
the code.  For the consecutive resolved angles pi/2 and -pi/2 — both inside
(-pi, pi] — the raw difference is exactly -pi, the wrap conditions of
rotation.rs lines 126-130 are both strict and leave it alone, and the
resulting `angle_delta` = -pi is not in (-pi, pi]. -/
theorem angle_delta_boundary_cex :
    angle_delta (Real.pi / 2) (-Real.pi / 2) = -Real.pi ∧
    ¬(-Real.pi < angle_delta (Real.pi / 2) (-Real.pi / 2)) ∧
    (-Real.pi < Real.pi / 2 ∧ Real.pi / 2 ≤ Real.pi) ∧
    (-Real.pi < -Real.pi / 2 ∧ -Real.pi / 2 ≤ Real.pi) := by
  have hπ := Real.pi_pos
  have h : angle_delta (Real.pi / 2) (-Real.pi / 2) = -Real.pi := by
    unfold angle_delta
    rw [if_neg (by linarith), if_neg (by linarith)]
    ring
  refine ⟨h, ?_, ⟨by linarith, by linarith⟩, ⟨by linarith, by linarith⟩⟩
  rw [h]
  exact lt_irrefl _

/-- C1 (amended): for any two consecutive resolved rotation angles θ1 (the
stored `last_rotation_angle`) and θ2 (the newly resolved angle), both in
(-pi, pi], the computed `angle_delta` lies in the closed interval
[-pi, pi] (the endpoint -pi is attained, see the counterexample) and is
congruent to θ2 - θ1 modulo 2 pi; in particular going from 179 to -179
degrees yields +2 degrees, the unique representative in [-pi, pi]. -/
theorem angle_delta_minimal (θ1 θ2 : ℝ)
    (h1l : -Real.pi < θ1) (h1u : θ1 ≤ Real.pi)
    (h2l : -Real.pi < θ2) (h2u : θ2 ≤ Real.pi) :
    (-Real.pi ≤ angle_delta θ1 θ2 ∧ angle_delta θ1 θ2 ≤ Real.pi) ∧
    ∃ k : ℤ, angle_delta θ1 θ2 = θ2 - θ1 + 2 * Real.pi * k := by
  have hπ := Real.pi_pos
  unfold angle_delta
  by_cases hA : θ2 - θ1 > Real.pi
  · rw [if_pos hA]
    exact ⟨⟨by linarith, by linarith⟩, ⟨-1, by push_cast; ring⟩⟩
  · rw [if_neg hA]
    by_cases hB : θ2 - θ1 < -Real.pi
    · rw [if_pos hB]
      exact ⟨⟨by linarith, by linarith⟩, ⟨1, by push_cast; ring⟩⟩
    · rw [if_neg hB]
      exact ⟨⟨by linarith, by linarith⟩, ⟨0, by push_cast; ring⟩⟩

/-- C1, witness: the amended law applied at the concrete angles 0 and 0. -/
theorem angle_delta_minimal_witness :
    (-Real.pi ≤ angle_delta 0 0 ∧ angle_delta 0 0 ≤ Real.pi) ∧
    ∃ k : ℤ, angle_delta 0 0 = 0 - 0 + 2 * Real.pi * k :=
  angle_delta_minimal 0 0 (neg_lt_zero.mpr Real.pi_pos) Real.pi_pos.le
    (neg_lt_zero.mpr Real.pi_pos) Real.pi_pos.le

/-! ### C3: rotation arc widening -/

/-- The Z handle of the plain configuration faces straight away from the
camera: the raw normal/forward dot product is exactly -1. -/
theorem dot_sgZ_forward :
    DVec3.dot (SubGizmo.normal sgZ) (sgZ.config.view_forward) = -1 := by
  simp [SubGizmo.normal, SubGizmo.local_normal, sgZ, cfgG, DVec3.dot, DVec3.unitZ]

/-- C3, counterexample: the claim quantifies over all dot values including
negative ones, but `arc_angle` takes the absolute value of the dot product
(rotation.rs line 153).  For the Z handle viewed from straight behind the
dot product is -1 ≤ 0.990, so the claim demands pi/2, yet the code widens
the arc to the full pi. -/
theorem arc_angle_negative_dot_cex :
    DVec3.dot (SubGizmo.normal sgZ) (sgZ.config.view_forward) ≤ 0.990 ∧
    arc_angle sgZ = Real.pi ∧ arc_angle sgZ ≠ Real.pi / 2 := by
  have hdot := dot_sgZ_forward
  have harc : arc_angle sgZ = Real.pi := by
    simp only [arc_angle, hdot]
    rw [show |(-1 : ℝ)| = 1 by norm_num]
    rw [show max 0 ((1 : ℝ) - 0.990) = 1 - 0.990 by norm_num]
    rw [show min 1 (((1 : ℝ) - 0.990) / (0.995 - 0.990)) = 1 by norm_num]
    ring
  refine ⟨by rw [hdot]; norm_num, harc, ?_⟩
  rw [harc]
  have := Real.pi_pos
  intro h
  linarith

/-- C3 (amended): `arc_angle` is exactly pi when the absolute value of the
normal/view-forward dot product is at least 0.995, exactly pi/2 when that
absolute value is at most 0.990, and linearly interpolated strictly between
the thresholds; the code applies the rule to |dot|, not to the signed dot. -/
theorem arc_angle_spec (sg : SubGizmo) :
    (0.995 ≤ |DVec3.dot (SubGizmo.normal sg) sg.config.view_forward| →
      arc_angle sg = Real.pi) ∧
    (|DVec3.dot (SubGizmo.normal sg) sg.config.view_forward| ≤ 0.990 →
      arc_angle sg = Real.pi / 2) ∧
    (0.990 < |DVec3.dot (SubGizmo.normal sg) sg.config.view_forward| →
      |DVec3.dot (SubGizmo.normal sg) sg.config.view_forward| < 0.995 →
      arc_angle sg =
        (|DVec3.dot (SubGizmo.normal sg) sg.config.view_forward| - 0.990) /
            (0.995 - 0.990) * (Real.pi / 2) + Real.pi / 2) := by
  refine ⟨fun h => ?_, fun h => ?_, fun h1 h2 => ?_⟩
  · simp only [arc_angle]
    rw [max_eq_right (by linarith),
      min_eq_left (by rw [le_div_iff₀ (by norm_num)]; linarith)]
    ring
  · simp only [arc_angle]
    rw [max_eq_left (by linarith)]
    rw [zero_div, min_eq_right (by norm_num)]
    ring
  · simp only [arc_angle]
    rw [max_eq_right (by linarith),
      min_eq_right (by rw [div_le_iff₀ (by norm_num)]; linarith)]

/-- C3, witness: the amended rule applied to the Z handle of the plain
configuration, whose |dot| is 1 ≥ 0.995, giving a full circle. -/
theorem arc_angle_spec_witness :
    0.995 ≤ |DVec3.dot (SubGizmo.normal sgZ) (sgZ.config.view_forward)| ∧
    arc_angle sgZ = Real.pi := by
  have h : (0.995 : ℝ) ≤ |DVec3.dot (SubGizmo.normal sgZ) (sgZ.config.view_forward)| := by
    rw [dot_sgZ_forward]; norm_num
  exact ⟨h, (arc_angle_spec sgZ).1 h⟩

/-! ### C10: updates leave the other transform components unchanged -/

/-- C10: every update result leaves the transform components outside its own
operation family equal to the input configuration: a rotation update returns
the configuration's scale and translation unchanged, and a linear or planar
translation update returns the configuration's scale and rotation
unchanged. -/
theorem update_preserves_other_components :
    (∀ sg cursor w2s st r, (update_rotation sg cursor w2s st).1 = some r →
      r.scale = sg.config.scale ∧ r.translation = sg.config.translation) ∧
    (∀ sg ray st r, (update_translation sg ray st).1 = some r →
      r.scale = sg.config.scale ∧ r.rotation = sg.config.rotation) ∧
    (∀ sg ray st r, (update_translation_plane sg ray st).1 = some r →
      r.scale = sg.config.scale ∧ r.rotation = sg.config.rotation) := by
  refine ⟨fun sg cursor w2s st r h => ?_, fun sg ray st r h => ?_, fun sg ray st r h => ?_⟩
  · unfold update_rotation at h
    cases hr : rotation_angle sg cursor w2s with
    | none => rw [hr] at h; exact absurd h (by simp)
    | some raw =>
      rw [hr] at h
      simp only [Option.some.injEq] at h
      rw [← h]
      exact ⟨rfl, rfl⟩
  · unfold update_translation at h
    simp only [Option.some.injEq] at h
    rw [← h]
    exact ⟨rfl, rfl⟩
  · unfold update_translation_plane at h
    cases hp : point_on_plane (SubGizmo.normal sg) (translation_plane_global_origin sg) ray with
    | none => rw [hp] at h; exact absurd h (by simp)
    | some p =>
      rw [hp] at h
      simp only [Option.some.injEq] at h
      rw [← h]
      exact ⟨rfl, rfl⟩

/-! ### C9: picks reseed the drag state even on a miss -/

/-- C9: every pick call that reaches its geometric test (for the translation
picks: that passes the visibility guard, which precedes the seeding; the
rotation pick has no guard) overwrites the persisted drag state with freshly
seeded values — the stored state after the call does not depend on the state
before it, its start and last fields coincide, and its accumulated delta is
zero — regardless of whether the pick hits or returns `none`. -/
theorem pick_seeds_state :
    (∀ seg2seg w2s sg ray st st',
      translation_is_visible w2s sg = true →
      (pick_translation seg2seg w2s sg ray st).2 =
        (pick_translation seg2seg w2s sg ray st').2 ∧
      (pick_translation seg2seg w2s sg ray st).2.start_point =
        (pick_translation seg2seg w2s sg ray st).2.last_point ∧
      (pick_translation seg2seg w2s sg ray st).2.current_delta = 0) ∧
    (∀ w2s sg ray st st',
      translation_plane_is_visible w2s sg = true →
      (pick_translation_plane w2s sg ray st).2 =
        (pick_translation_plane w2s sg ray st').2 ∧
      (pick_translation_plane w2s sg ray st).2.start_point =
        (pick_translation_plane w2s sg ray st).2.last_point ∧
      (pick_translation_plane w2s sg ray st).2.current_delta = 0) ∧
    (∀ sg cursor w2s ray st st',
      (pick_rotation sg cursor w2s ray st).2 =
        (pick_rotation sg cursor w2s ray st').2 ∧
      (pick_rotation sg cursor w2s ray st).2.start_rotation_angle =
        (pick_rotation sg cursor w2s ray st).2.last_rotation_angle ∧
      (pick_rotation sg cursor w2s ray st).2.current_delta = 0) := by
  refine ⟨fun seg2seg w2s sg ray st st' h => ?_, fun w2s sg ray st st' h => ?_,
    fun sg cursor w2s ray st st' => ⟨rfl, rfl, rfl⟩⟩
  · unfold pick_translation
    rw [if_neg (by rw [h]; simp), if_neg (by rw [h]; simp)]
    exact ⟨rfl, rfl, rfl⟩
  · unfold pick_translation_plane
    rw [if_neg (by rw [h]; simp), if_neg (by rw [h]; simp)]
    exact ⟨rfl, rfl, rfl⟩

/-- C9, witness: the three seeding properties at a concrete handle, ray and
pair of distinct prior states; the projection maps everything behind the
camera, so both visibility guards pass. -/
theorem pick_seeds_state_witness :
    ((pick_translation (fun _ _ _ _ => (0, 0)) w2sNone sgX rayT stT).2 =
        (pick_translation (fun _ _ _ _ => (0, 0)) w2sNone sgX rayT st0).2 ∧
      (pick_translation (fun _ _ _ _ => (0, 0)) w2sNone sgX rayT stT).2.start_point =
        (pick_translation (fun _ _ _ _ => (0, 0)) w2sNone sgX rayT stT).2.last_point ∧
      (pick_translation (fun _ _ _ _ => (0, 0)) w2sNone sgX rayT stT).2.current_delta = 0) ∧
    ((pick_translation_plane w2sNone sgX rayP stT).2 =
        (pick_translation_plane w2sNone sgX rayP st0).2 ∧
      (pick_translation_plane w2sNone sgX rayP stT).2.start_point =
        (pick_translation_plane w2sNone sgX rayP stT).2.last_point ∧
      (pick_translation_plane w2sNone sgX rayP stT).2.current_delta = 0) ∧
    ((pick_rotation sgX cursorW w2sNone rayT stR0).2 =
        (pick_rotation sgX cursorW w2sNone rayT ⟨1, 2, 3, 4⟩).2 ∧
      (pick_rotation sgX cursorW w2sNone rayT stR0).2.start_rotation_angle =
        (pick_rotation sgX cursorW w2sNone rayT stR0).2.last_rotation_angle ∧
      (pick_rotation sgX cursorW w2sNone rayT stR0).2.current_delta = 0) :=
  ⟨pick_seeds_state.1 (fun _ _ _ _ => (0, 0)) w2sNone sgX rayT stT st0 rfl,
   pick_seeds_state.2.1 w2sNone sgX rayP stT st0 rfl,
   pick_seeds_state.2.2 sgX cursorW w2sNone rayT stR0 ⟨1, 2, 3, 4⟩⟩

/-! ### C6: when the update functions return no result -/

/-- C6, counterexample: the claim demands `None` when the ray is parallel to
the constraint line, but `update_translation` has no failure path: for the
ray running parallel to the X axis (its direction equals the handle normal)
the underlying closest-point primitive falls back instead of failing and the
update still returns a result. -/
theorem update_translation_parallel_ray_cex :
    rayPar.direction = SubGizmo.normal sgX ∧
    ((update_translation sgX rayPar st0).1).isSome = true := by
  constructor
  · simp [rayPar, sgX, cfgG, SubGizmo.normal, SubGizmo.local_normal, DVec3.unitX]
  · rfl

/-- C6 (amended): `update_translation` always returns a result — a ray
parallel to the constraint line is handled by the guarded fallback of
`ray_to_ray`, not by returning `None`; `update_translation_plane` returns
`None` exactly when the ray is parallel to the constraint plane; and
`update_rotation` returns `None` exactly when `rotation_angle` fails, which
happens exactly when the pointer position is unavailable, the gizmo origin
projects behind the camera, or the pointer coincides with the projected
origin (the zero-length normalize). -/
theorem update_none_conditions :
    (∀ sg ray st, ((update_translation sg ray st).1).isSome = true) ∧
    (∀ sg ray st, ((update_translation_plane sg ray st).1 = none ↔
      DVec3.dot (SubGizmo.normal sg) ray.direction = 0)) ∧
    (∀ sg cursor w2s st, ((update_rotation sg cursor w2s st).1 = none ↔
      rotation_angle sg cursor w2s = none)) ∧
    (∀ sg w2s, rotation_angle sg none w2s = none) ∧
    (∀ sg c w2s, w2s ⟨0, 0, 0⟩ = none → rotation_angle sg (some c) w2s = none) ∧
    (∀ sg c g w2s, w2s ⟨0, 0, 0⟩ = some g →
      (rotation_angle sg (some c) w2s = none ↔
        DVec2.length ⟨c.x - g.x, c.y - g.y⟩ = 0)) := by
  refine ⟨fun sg ray st => rfl, fun sg ray st => ?_, fun sg cursor w2s st => ?_,
    fun sg w2s => rfl, fun sg c w2s h => ?_, fun sg c g w2s h => ?_⟩
  · by_cases h : DVec3.dot (SubGizmo.normal sg) ray.direction = 0
    · simp [update_translation_plane, point_on_plane, intersect_plane, h]
    · simp [update_translation_plane, point_on_plane, intersect_plane, h]
  · cases hr : rotation_angle sg cursor w2s with
    | none => simp [update_rotation, hr]
    | some raw => simp [update_rotation, hr]
  · simp [rotation_angle, h]
  · by_cases hl : DVec2.length ⟨c.x - g.x, c.y - g.y⟩ = 0
    · simp [rotation_angle, h, hl]
    · simp [rotation_angle, h, hl]

/-- C6, witness: the amended conditions applied at concrete inputs: the
parallel planar case (ray direction inside the X plane) yields `none`, and
the rotation update with the pointer exactly on the projected origin yields
`none`. -/
theorem update_none_conditions_witness :
    ((update_translation sgX rayT st0).1).isSome = true ∧
    ((update_translation_plane sgX rayPar st0).1 = none ↔
      DVec3.dot (SubGizmo.normal sgX) rayPar.direction = 0) ∧
    ((update_rotation sgX (some ⟨0, 0⟩) w2sZero stR0).1 = none ↔
      rotation_angle sgX (some ⟨0, 0⟩) w2sZero = none) ∧
    (rotation_angle sgX (some ⟨0, 0⟩) w2sZero = none ↔
      DVec2.length ⟨(0 : ℝ) - 0, (0 : ℝ) - 0⟩ = 0) :=
  ⟨update_none_conditions.1 sgX rayT st0,
   update_none_conditions.2.1 sgX rayPar st0,
   update_none_conditions.2.2.1 sgX (some ⟨0, 0⟩) w2sZero stR0,
   update_none_conditions.2.2.2.2.2 sgX ⟨0, 0⟩ ⟨0, 0⟩ w2sZero rfl⟩

/-! ### C5: degenerate (edge-on) handles are not interactable -/

/-- C5: a linear translation handle whose two defining endpoints project to
screen points less than 5 screen units apart is invisible, its pick returns
`none` regardless of the ray (leaving the drag state untouched) and its
drawing is skipped; likewise a planar translation handle as soon as either
of its two defining endpoint pairs projects within 5 screen units. -/
theorem degenerate_handle_not_interactable :
    (∀ w2s sg ray st seg2seg s1 s2,
      w2s (translation_endpoints sg).1 = some s1 →
      w2s (translation_endpoints sg).2 = some s2 →
      DVec2.distance s1 s2 < 5 →
      translation_is_visible w2s sg = false ∧
      pick_translation seg2seg w2s sg ray st = (none, st) ∧
      draw_translation w2s sg = []) ∧
    (∀ w2s sg ray st s1 s2,
      ((w2s (translation_plane_span_a sg).1 = some s1 ∧
        w2s (translation_plane_span_a sg).2 = some s2 ∧
        DVec2.distance s1 s2 < 5) ∨
       (w2s (translation_plane_span_b sg).1 = some s1 ∧
        w2s (translation_plane_span_b sg).2 = some s2 ∧
        DVec2.distance s1 s2 < 5)) →
      translation_plane_is_visible w2s sg = false ∧
      pick_translation_plane w2s sg ray st = (none, st) ∧
      draw_translation_plane w2s sg = []) := by
  refine ⟨fun w2s sg ray st seg2seg s1 s2 h1 h2 h3 => ?_,
    fun w2s sg ray st s1 s2 hor => ?_⟩
  · have hv : translation_is_visible w2s sg = false := by
      unfold translation_is_visible
      rw [h1, h2]
      simp [h3]
    exact ⟨hv, by unfold pick_translation; rw [if_pos hv],
      by unfold draw_translation; rw [if_pos hv]⟩
  · have hv : translation_plane_is_visible w2s sg = false := by
      unfold translation_plane_is_visible
      rcases hor with ⟨h1, h2, h3⟩ | ⟨h1, h2, h3⟩
      · rw [h1, h2]
        simp [h3]
      · rw [h1, h2]
        simp [h3]
    exact ⟨hv, by unfold pick_translation_plane; rw [if_pos hv],
      by unfold draw_translation_plane; rw [if_pos hv]⟩

/-- C5, witness: under a projection collapsing every point to the screen
origin, the X linear handle's endpoints are 0 < 5 units apart: it is
invisible, its pick misses (state untouched) and its drawing is empty. -/
theorem degenerate_handle_not_interactable_witness :
    translation_is_visible w2sZero sgX = false ∧
    pick_translation (fun _ _ _ _ => (0, 0)) w2sZero sgX rayT stT = (none, stT) ∧
    draw_translation w2sZero sgX = [] :=
  degenerate_handle_not_interactable.1 w2sZero sgX rayT stT (fun _ _ _ _ => (0, 0))
    ⟨0, 0⟩ ⟨0, 0⟩ rfl rfl
    (by norm_num [DVec2.distance, Real.sqrt_zero])

/-! ### C8: snapping of the linear translation delta -/

/-- Scaling a vector scales its length by the absolute factor. -/
theorem DVec3.length_smul (c : ℝ) (v : DVec3) :
    DVec3.length (c • v) = |c| * DVec3.length v := by
  unfold DVec3.length DVec3.dot
  simp only [DVec3.smul_def]
  rw [show c * v.x * (c * v.x) + c * v.y * (c * v.y) + c * v.z * (c * v.z)
      = c ^ 2 * (v.x * v.x + v.y * v.y + v.z * v.z) by ring]
  rw [Real.sqrt_mul (sq_nonneg c), Real.sqrt_sq_eq_abs]

/-- Rounding a nonnegative value to an interval yields a nonnegative value. -/
theorem round_to_interval_nonneg (v i : ℝ) (hv : 0 ≤ v) :
    0 ≤ round_to_interval v i := by
  unfold round_to_interval
  by_cases hi : i ≤ 0
  · rw [if_pos hi]; exact hv
  · rw [if_neg hi]
    have hi0 : 0 < i := not_le.mp hi
    have hq : (0 : ℝ) ≤ v / i := div_nonneg hv hi0.le
    have hr : (0 : ℤ) ≤ round (v / i) := by
      rw [round_eq]
      exact Int.le_floor.mpr (by push_cast; linarith)
    exact mul_nonneg (by exact_mod_cast hr) hi0.le

/-- C8: in a linear translation update with snapping enabled, the stored
delta is `snap_translation_vector` of the raw delta; the snapped delta is
the raw delta scaled by the nonnegative factor
`round_to_interval(length, snap_distance) / length` — so its direction is
unchanged and its length becomes exactly the rounded length — and a raw
delta of length at most 1e-5 is returned unchanged, so the near-zero
division never occurs. -/
theorem snap_translation_vector_spec (sg : SubGizmo) (ray : Ray)
    (st : TranslationState) (d : DVec3) :
    (DVec3.length d ≤ 1e-5 → snap_translation_vector sg d = d) ∧
    (1e-5 < DVec3.length d →
      snap_translation_vector sg d =
        (round_to_interval (DVec3.length d) sg.config.snap_distance /
          DVec3.length d) • d ∧
      0 ≤ round_to_interval (DVec3.length d) sg.config.snap_distance /
          DVec3.length d ∧
      DVec3.length (snap_translation_vector sg d) =
        round_to_interval (DVec3.length d) sg.config.snap_distance) ∧
    (sg.config.snapping = true →
      (update_translation sg ray st).2.current_delta =
        snap_translation_vector sg (point_on_axis sg ray - st.start_point)) := by
  refine ⟨fun h => ?_, fun h => ?_, fun hs => ?_⟩
  · unfold snap_translation_vector
    rw [if_neg (not_lt.mpr h)]
  · have hlen0 : (0 : ℝ) < DVec3.length d := lt_trans (by norm_num) h
    have heq : snap_translation_vector sg d =
        (round_to_interval (DVec3.length d) sg.config.snap_distance /
          DVec3.length d) • d := by
      unfold snap_translation_vector
      rw [if_pos h]
    have hfac : 0 ≤ round_to_interval (DVec3.length d) sg.config.snap_distance /
        DVec3.length d :=
      div_nonneg (round_to_interval_nonneg _ _ hlen0.le) hlen0.le
    refine ⟨heq, hfac, ?_⟩
    rw [heq, DVec3.length_smul, abs_of_nonneg hfac,
      div_mul_cancel₀ _ (ne_of_gt hlen0)]
  · simp only [update_translation, hs]
    simp

/-! ### C7: the rotation update applies the per-frame increment -/

/-- With the pointer one unit right of the projected origin and the camera
along -Z, the resolved rotation angle of the X handle is exactly 0. -/
theorem rotation_angle_sgX_concrete :
    rotation_angle sgX cursorW w2sZero = some 0 := by
  have hlen : DVec2.length ⟨(1 : ℝ) - 0, (0 : ℝ) - 0⟩ = 1 := by
    unfold DVec2.length
    norm_num
  have harg : atan2 (((0 : ℝ) - 0) / DVec2.length ⟨(1 : ℝ) - 0, (0 : ℝ) - 0⟩)
      (((1 : ℝ) - 0) / DVec2.length ⟨(1 : ℝ) - 0, (0 : ℝ) - 0⟩) = 0 := by
    rw [hlen]
    norm_num
    unfold atan2
    exact Complex.arg_one
  simp only [rotation_angle, cursorW, w2sZero, DVec2.normalize]
  rw [if_neg (by rw [hlen]; norm_num)]
  rw [harg]
  have hdot : DVec3.dot sgX.config.view_forward (SubGizmo.normal sgX) = 0 := by
    simp [sgX, cfgG, SubGizmo.normal, SubGizmo.local_normal, DVec3.dot, DVec3.unitX]
  rw [hdot]
  simp

/-- C7: whenever the rotation update returns a result, the returned
quaternion is `from_axis_angle(normal, -angle_delta)` multiplied on the left
of the configuration's previous rotation, where `angle_delta` is this
frame's wrap-corrected increment `angle_delta(last_rotation_angle,
resolved_angle)`, not the absolute accumulated angle. -/
theorem update_rotation_applies_increment (sg : SubGizmo) (cursor : Option DVec2)
    (w2s : DVec3 → Option DVec2) (st : RotationState) (raw : ℝ)
    (h : rotation_angle sg cursor w2s = some raw) :
    ((update_rotation sg cursor w2s st).1).map GizmoResult.rotation =
      some ((DQuat.fromAxisAngle (SubGizmo.normal sg)
        (-angle_delta st.last_rotation_angle (resolved_angle sg st raw))).mul
        sg.config.rotation) := by
  simp [update_rotation, h]

/-- C7, witness: the increment law at the concrete handle, pointer and
zeroed state, where the resolved angle is 0. -/
theorem update_rotation_applies_increment_witness :
    ((update_rotation sgX cursorW w2sZero stR0).1).map GizmoResult.rotation =
      some ((DQuat.fromAxisAngle (SubGizmo.normal sgX)
        (-angle_delta stR0.last_rotation_angle (resolved_angle sgX stR0 0))).mul
        sgX.config.rotation) :=
  update_rotation_applies_increment sgX cursorW w2sZero stR0 0
    rotation_angle_sgX_concrete

/-! ### C2: returned transform and raw value versus the stored delta -/

/-- C2, counterexample: the update stores the fresh accumulated delta
(2,0,0) into the drag state, but the returned raw `value` is read from the
state copy loaded before the store (translation.rs line 136), here the
previous frame's (5,5,5) — so the returned value is not the `current_delta`
this call stores. -/
theorem update_value_stale_cex :
    ((update_translation sgX rayT stT).1).map GizmoResult.value = some ⟨5, 5, 5⟩ ∧
    (update_translation sgX rayT stT).2.current_delta = ⟨2, 0, 0⟩ ∧
    (⟨5, 5, 5⟩ : DVec3) ≠ ⟨2, 0, 0⟩ := by
  refine ⟨?_, ?_, by norm_num [DVec3.mk.injEq]⟩
  · simp [update_translation, sgX, cfgG, stT]
  · simp [update_translation, point_on_axis, ray_to_ray, sgX, cfgG, stT, rayT,
      DVec3.dot, DVec3.unitX, SubGizmo.normal, SubGizmo.local_normal]

/-- C2 (amended): each update call stores the fresh accumulated-since-start
delta into the drag state, and the returned translation for the linear and
planar updates is the original translation plus (new point minus the
previous frame's `last_point`), as claimed; but the returned raw `value` is
the `current_delta` read from the state at entry — the previous frame's
accumulated delta, one frame behind the value this call stores (for
rotation, that stale running sum scaled by the handle normal). -/
theorem update_result_fields :
    (∀ sg ray st,
      (update_translation sg ray st).1 =
        some ⟨sg.config.scale, sg.config.rotation,
          sg.config.translation + (update_translation sg ray st).2.last_point -
            st.last_point,
          GizmoMode.Translate, st.current_delta⟩ ∧
      (update_translation sg ray st).2.current_delta =
        (update_translation sg ray st).2.last_point - st.start_point) ∧
    (∀ sg ray st p,
      point_on_plane (SubGizmo.normal sg) (translation_plane_global_origin sg) ray =
        some p →
      (update_translation_plane sg ray st).1 =
        some ⟨sg.config.scale, sg.config.rotation,
          sg.config.translation + (update_translation_plane sg ray st).2.last_point -
            st.last_point,
          GizmoMode.Translate, st.current_delta⟩ ∧
      (update_translation_plane sg ray st).2.current_delta =
        (update_translation_plane sg ray st).2.last_point - st.start_point) ∧
    (∀ sg cursor w2s st raw,
      rotation_angle sg cursor w2s = some raw →
      ((update_rotation sg cursor w2s st).1).map GizmoResult.value =
        some (st.current_delta • SubGizmo.normal sg) ∧
      (update_rotation sg cursor w2s st).2.current_delta =
        st.current_delta + angle_delta st.last_rotation_angle (resolved_angle sg st raw)) := by
  refine ⟨fun sg ray st => ?_, fun sg ray st p hp => ?_,
    fun sg cursor w2s st raw h => by simp [update_rotation, h]⟩
  · by_cases hs : sg.config.snapping = true
    · constructor
      · simp [update_translation, hs]
      · simp only [update_translation, hs, if_true]
        ext <;> simp
    · constructor
      · simp [update_translation, hs]
      · simp [update_translation, hs]
  · by_cases hs : sg.config.snapping = true
    · constructor
      · simp [update_translation_plane, hp, hs]
      · simp only [update_translation_plane, hp, hs, if_true]
        ext <;> simp
    · constructor
      · simp [update_translation_plane, hp, hs]
      · simp [update_translation_plane, hp, hs]

/-- C2, witness: the amended field equations at concrete inputs — the
linear update at the state holding delta (5,5,5), and the rotation update
at the zeroed state. -/
theorem update_result_fields_witness :
    ((update_translation sgX rayT stT).1 =
      some ⟨sgX.config.scale, sgX.config.rotation,
        sgX.config.translation + (update_translation sgX rayT stT).2.last_point -
          stT.last_point,
        GizmoMode.Translate, stT.current_delta⟩ ∧
      (update_translation sgX rayT stT).2.current_delta =
        (update_translation sgX rayT stT).2.last_point - stT.start_point) ∧
    (((update_rotation sgX cursorW w2sZero stR0).1).map GizmoResult.value =
      some (stR0.current_delta • SubGizmo.normal sgX) ∧
      (update_rotation sgX cursorW w2sZero stR0).2.current_delta =
        stR0.current_delta +
          angle_delta stR0.last_rotation_angle (resolved_angle sgX stR0 0)) :=
  ⟨update_result_fields.1 sgX rayT stT,
   update_result_fields.2.2 sgX cursorW w2sZero stR0 0 rotation_angle_sgX_concrete⟩

/-! ### C4: the planar pick threshold -/

/-- The concrete ray `rayP` meets the X plane patch of the plain
configuration at ray parameter 1, at distance 3/4 from the patch origin. -/
theorem rayP_plane_hit :
    (ray_to_plane_origin (SubGizmo.normal sgX) (translation_plane_global_origin sgX)
      rayP.origin rayP.direction).1 = 1 ∧
    (ray_to_plane_origin (SubGizmo.normal sgX) (translation_plane_global_origin sgX)
      rayP.origin rayP.direction).2 = 3 / 4 := by
  constructor
  · simp [ray_to_plane_origin, DVec3.dot, sgX, cfgG, rayP,
      SubGizmo.normal, SubGizmo.local_normal, DVec3.unitX, DVec3.unitY, DVec3.unitZ,
      translation_plane_global_origin, translation_plane_local_origin,
      translation_plane_binormal, translation_plane_tangent]
  · simp [ray_to_plane_origin, DVec3.dot, DVec3.length, sgX, cfgG, rayP,
      SubGizmo.normal, SubGizmo.local_normal, DVec3.unitX, DVec3.unitY, DVec3.unitZ,
      translation_plane_global_origin, translation_plane_local_origin,
      translation_plane_binormal, translation_plane_tangent]
    norm_num
    rw [show (9 : ℝ) = 3 ^ 2 by norm_num, show (16 : ℝ) = 4 ^ 2 by norm_num,
      Real.sqrt_sq (by norm_num), Real.sqrt_sq (by norm_num)]

/-- The plane patch size of the X handle of the plain configuration is 1. -/
theorem translation_plane_size_sgX : translation_plane_size sgX = 1 := by
  simp [translation_plane_size, sgX, cfgG]
  norm_num

/-- C4, counterexample: the claim's threshold is the patch's half-size (half
of `translation_plane_size`, the drawn polygon's half-extent), but the code
compares against the full `translation_plane_size` (translation.rs line
212): the intersection of `rayP` lies 3/4 from the patch origin — farther
than the half-size 1/2 — yet the pick returns a hit instead of `None`. -/
theorem pick_translation_plane_halfsize_cex :
    (ray_to_plane_origin (SubGizmo.normal sgX) (translation_plane_global_origin sgX)
      rayP.origin rayP.direction).2 = 3 / 4 ∧
    translation_plane_size sgX * (1 / 2) < 3 / 4 ∧
    (pick_translation_plane w2sNone sgX rayP st0).1 = some 1 := by
  have hd := rayP_plane_hit.2
  have ht := rayP_plane_hit.1
  have hvis : translation_plane_is_visible w2sNone sgX = true := rfl
  refine ⟨hd, by rw [translation_plane_size_sgX]; norm_num, ?_⟩
  simp only [pick_translation_plane]
  rw [if_neg (by rw [hvis]; simp)]
  dsimp only
  rw [if_pos (by rw [hd, translation_plane_size_sgX]; norm_num)]
  rw [ht]

/-- C4 (amended): a planar translation pick that passes the visibility
guard returns a hit exactly when the ray's intersection with the handle's
plane lies within the full plane-patch size (`translation_plane_size`,
twice the drawn polygon's half-extent) of the patch origin. -/
theorem pick_translation_plane_threshold (w2s : DVec3 → Option DVec2)
    (sg : SubGizmo) (ray : Ray) (st : TranslationState)
    (hvis : translation_plane_is_visible w2s sg = true) :
    ((pick_translation_plane w2s sg ray st).1).isSome = true ↔
      (ray_to_plane_origin (SubGizmo.normal sg) (translation_plane_global_origin sg)
        ray.origin ray.direction).2 ≤ translation_plane_size sg := by
  simp only [pick_translation_plane]
  rw [if_neg (by rw [hvis]; simp)]
  dsimp only
  by_cases h : (ray_to_plane_origin (SubGizmo.normal sg)
      (translation_plane_global_origin sg) ray.origin ray.direction).2 ≤
      translation_plane_size sg
  · rw [if_pos h]
    simpa using h
  · rw [if_neg h]
    simpa using h

/-- C4, witness: the threshold rule at the concrete handle and ray, where
the distance 3/4 is within the size 1 and the pick indeed hits. -/
theorem pick_translation_plane_threshold_witness :
    ((pick_translation_plane w2sNone sgX rayP st0).1).isSome = true ↔
      (ray_to_plane_origin (SubGizmo.normal sgX) (translation_plane_global_origin sgX)
        rayP.origin rayP.direction).2 ≤ translation_plane_size sgX :=
  pick_translation_plane_threshold w2sNone sgX rayP st0 rfl

end Gizmo
